import Mathlib

/-!
Shallow embedding of the concourse-github-lambda key-rotation engine.

The Go sources embedded here:
  * pkg/template  — `NewTemplate`, `NewTemplateWithoutRepository`, `Template.String`
    (Go `text/template` with `missingkey=error`, restricted to the three struct
    fields `.Team`, `.Owner`, `.Repository` that the program ever uses);
  * pkg/handler   — `New`, the per-team run: token issuance followed by the
    per-repository key-rotation loop.  External calls are modelled by an
    environment (`Env`) giving the outcome of each call, and the run is
    embedded as a function producing the list of calls it performs (`Event`)
    together with the run's result;
  * pkg/manager   — `WriteSecret` / `GetLastUpdated` over a secrets-manager
    store, with the RFC3339 timestamp stamped into the description field;
  * pkg/repo, pkg/dynamodb — the `Repo` record and `DynamoDBReposLister.List`.
-/

namespace GithubLambda

/-- `repo.Repo`: a repository entry `{Name, ReadOnly}`. -/
structure Repo where
  name : String
  readOnly : Bool
deriving DecidableEq, Repr

/-- A deploy key as returned by the code host (`github.Key`): the fields the
handler reads.  `Title` is dereferenced unconditionally by the handler, so it
is modelled as a plain string; `ReadOnly` is nil-checked, so it is an option. -/
structure GithubKey where
  id : Int
  title : String
  readOnly : Option Bool
deriving DecidableEq, Repr

/-! ### Template resolver (pkg/template) -/

/-- `template.Template`: substitution context plus the pattern string. -/
structure Template where
  Team : String
  Owner : String
  Repository : String
  Pattern : String
deriving DecidableEq, Repr

/-- `strings.ReplaceAll(s, ".", "-")`: with a one-character pattern and
replacement this is exactly a character map. -/
def sanitizeRepoName (s : String) : String :=
  String.mk (s.data.map fun c => if c = '.' then '-' else c)

/-- `template.NewTemplate`: builds the context for a repository-including
template; the repository name is sanitised by replacing every `.` with `-`. -/
def NewTemplate (team repository owner pattern : String) : Template :=
  { Team := team
    Owner := owner
    Repository := sanitizeRepoName repository
    Pattern := pattern }

/-- `template.NewTemplateWithoutRepository`: context with an empty repository. -/
def NewTemplateWithoutRepository (team owner pattern : String) : Template :=
  { Team := team, Owner := owner, Repository := "", Pattern := pattern }

/-- Field lookup for `text/template` execution over the `Template` struct with
`missingkey=error`: only the three real struct fields resolve, anything else
is an execution error (`none`). -/
def fieldValue (t : Template) (field : String) : Option String :=
  if field = "Team" then some t.Team
  else if field = "Owner" then some t.Owner
  else if field = "Repository" then some t.Repository
  else none

/-- Scan to the closing `\x7d\x7d` of an action, returning the action body and
the remainder; `none` when the action is never closed (a parse error). -/
def closeAct : List Char → Option (List Char × List Char)
  | [] => none
  | c :: rest =>
    if c = '}' then
      match rest with
      | d :: rest2 => if d = '}' then some ([], rest2)
          else match closeAct rest with
            | some (ins, r) => some (c :: ins, r)
            | none => none
      | [] => none
    else
      match closeAct rest with
      | some (ins, r) => some (c :: ins, r)
      | none => none

/-- An action body `.Name` evaluates the field `Name`; any other body is an
error (the program only ever uses simple field actions). -/
def evalAct (t : Template) : List Char → Option String
  | '.' :: nameChars =>
    if nameChars = [] then none
    else fieldValue t (String.mk nameChars)
  | _ => none

/-- Render the pattern: literal characters pass through, `\x7b\x7b...\x7d\x7d`
actions are evaluated; fuelled recursion (the fuel is the input length). -/
def renderChars (t : Template) : Nat → List Char → Option String
  | 0, [] => some ""
  | 0, _ :: _ => none
  | _ + 1, [] => some ""
  | fuel + 1, c :: rest =>
    if c = '{' then
      match rest with
      | d :: rest2 =>
        if d = '{' then
          match closeAct rest2 with
          | none => none
          | some (ins, r) =>
            match evalAct t ins with
            | none => none
            | some v =>
              match renderChars t fuel r with
              | none => none
              | some s => some (v ++ s)
        else
          match renderChars t fuel rest with
          | none => none
          | some s => some (String.mk [c] ++ s)
      | [] => some (String.mk [c])
    else
      match renderChars t fuel rest with
      | none => none
      | some s => some (String.mk [c] ++ s)

/-- `Template.String`: parse and execute the pattern against the context,
`none` on a parse or execution (missing-field) error. -/
def Template.render (t : Template) : Option String :=
  renderChars t t.Pattern.length t.Pattern.data

/-! ### The per-team run (pkg/handler `New`) -/

/-- One external call performed by the run (arguments as the handler passes
them); the trace of a run is a list of these. -/
inductive Event where
  | createAccessToken (owner : String)
  | writeSecret (path : String)
  | listRepos
  | listKeys (owner repoName : String)
  | getLastUpdated (path : String)
  | generateKeyPair (title : String)
  | createKey (owner repoName : String) (readOnly : Bool) (title : String)
  | sleep
  | deleteKey (owner repoName : String) (id : Int)
deriving DecidableEq, Repr

/-- Calls that write upstream state (create a token, publish or delete a key,
generate a provider-side key pair, write a secret). -/
def Event.isMutating : Event → Bool
  | .createAccessToken _ => true
  | .writeSecret _ => true
  | .generateKeyPair _ => true
  | .createKey .. => true
  | .deleteKey .. => true
  | _ => false

/-- Error from the secret-timestamp lookup: the secret does not exist
(`ResourceNotFoundException`) or anything else. -/
inductive SecretsErr where
  | notFound
  | other (msg : String)
deriving DecidableEq, Repr

/-- Outcomes of the external calls the handler makes, fixed for one run.
`sevenDaysAgo` is the instant `time.Now().AddDate(0, 0, -7)` of the staleness
check, and timestamps are instants on the same integer time line. -/
structure Env where
  createAccessToken : Except String String
  writeSecret : String → Except String Unit
  listRepos : Except String (List Repo)
  listKeys : String → Except String (List GithubKey)
  getLastUpdated : String → Except SecretsErr Int
  generateKeyPair : String → Except String (String × String)
  createKey : String → Except String Unit
  deleteKey : String → Int → Except String Unit
  sevenDaysAgo : Int

/-- The guard `key.ReadOnly != nil && *key.ReadOnly != repo.ReadOnly`. -/
def flagMismatch (key : GithubKey) (r : Repo) : Bool :=
  match key.readOnly with
  | some ro => ro != r.readOnly
  | none => false

/-- The inner `for _, key := range keys` loop of the handler.  Returns the
lookup events it performed, the final `oldKey`, and whether control falls
through to the rotation steps (`true`) or `continue Loop` skipped the
repository (`false`). -/
def keyLoop (env : Env) (r : Repo) (title keyPath : String) :
    List GithubKey → Option GithubKey → List Event × Option GithubKey × Bool
  | [], oldKey => ([], oldKey, true)
  | key :: rest, oldKey =>
    if key.title = title then
      if flagMismatch key r then
        ([], some key, true)
      else
        match env.getLastUpdated keyPath with
        | .error .notFound => ([.getLastUpdated keyPath], some key, true)
        | .error (.other _) => ([.getLastUpdated keyPath], some key, true)
        | .ok updated =>
          if env.sevenDaysAgo < updated then
            ([.getLastUpdated keyPath], some key, false)
          else
            let out := keyLoop env r title keyPath rest (some key)
            (.getLastUpdated keyPath :: out.1, out.2)
    else
      keyLoop env r title keyPath rest oldKey

/-- The body of the handler's `for _, repo := range repos` loop for one
repository: resolve the key path and title, list the existing keys, run the
decision loop, and execute the rotation steps.  Every failure logs and moves
on, so the body only ever contributes events, never a run-level error. -/
def handleRepo (env : Env) (team org keyTemplate titleTemplate : String)
    (r : Repo) : List Event :=
  match (NewTemplate team r.name org keyTemplate).render with
  | none => []
  | some keyPath =>
  match (NewTemplate team r.name org titleTemplate).render with
  | none => []
  | some title =>
  match env.listKeys r.name with
  | .error _ => [.listKeys org r.name]
  | .ok keys =>
    let loopOut := keyLoop env r title keyPath keys none
    let before := Event.listKeys org r.name :: loopOut.1
    if loopOut.2.2 = false then before
    else
      match env.generateKeyPair title with
      | .error _ => before ++ [.generateKeyPair title]
      | .ok _ =>
        match env.createKey r.name with
        | .error _ =>
          before ++ [.generateKeyPair title, .createKey org r.name r.readOnly title]
        | .ok _ =>
          match env.writeSecret keyPath with
          | .error _ =>
            before ++ [.generateKeyPair title, .createKey org r.name r.readOnly title,
              .writeSecret keyPath]
          | .ok _ =>
            match loopOut.2.1 with
            | none =>
              before ++ [.generateKeyPair title, .createKey org r.name r.readOnly title,
                .writeSecret keyPath]
            | some oldKey =>
              before ++ [.generateKeyPair title, .createKey org r.name r.readOnly title,
                .writeSecret keyPath, .sleep, .deleteKey org r.name oldKey.id]

/-- The handler closure returned by `handler.New`, for one team: resolve the
token path, issue and store the organisation token (both fatal on failure),
then process each listed repository in order. -/
def runTeam (env : Env) (team org tokenTemplate keyTemplate titleTemplate : String) :
    List Event × Except String Unit :=
  match (NewTemplateWithoutRepository team org tokenTemplate).render with
  | none => ([], .error "parsing token path template")
  | some tokenPath =>
    match env.createAccessToken with
    | .error _ => ([.createAccessToken org], .error "creating access token")
    | .ok _ =>
      match env.writeSecret tokenPath with
      | .error _ =>
        ([.createAccessToken org, .writeSecret tokenPath], .error "writing access token")
      | .ok _ =>
        match env.listRepos with
        | .error _ =>
          ([.createAccessToken org, .writeSecret tokenPath, .listRepos],
           .error "listing repos")
        | .ok repos =>
          (Event.createAccessToken org :: Event.writeSecret tokenPath ::
            Event.listRepos ::
            (repos.map (handleRepo env team org keyTemplate titleTemplate)).flatten,
           .ok ())

/-! ### Secrets manager (pkg/manager `WriteSecret` / `GetLastUpdated`)

`WriteSecret` stamps `time.Now().UTC().Format(time.RFC3339)` into the secret's
description; `GetLastUpdated` finds it back with the regular expression
`\d{4}-\d{2}-\d{2}T\d{2}:\d{2}:\d{2}Z` and `time.Parse(time.RFC3339, ...)`.
A UTC instant with whole seconds formats exactly as `YYYY-MM-DDTHH:MM:SSZ`. -/

/-- A calendar UTC instant at second precision (what `time.Now().UTC()`
truncated to `time.RFC3339` carries). -/
structure DateTime where
  year : Nat
  month : Nat
  day : Nat
  hour : Nat
  minute : Nat
  second : Nat
deriving DecidableEq, Repr

def isLeapYear (y : Nat) : Bool :=
  (y % 4 = 0 && y % 100 != 0) || y % 400 = 0

def daysInMonth (y m : Nat) : Nat :=
  if m = 2 then (if isLeapYear y then 29 else 28)
  else if m = 4 || m = 6 || m = 9 || m = 11 then 30
  else 31

/-- The field ranges `time.Parse` accepts (and within which `time.Now` always
falls); RFC3339 formatting also needs a four-digit year. -/
def DateTime.valid (d : DateTime) : Bool :=
  d.year ≤ 9999 && 1 ≤ d.month && d.month ≤ 12 &&
  1 ≤ d.day && d.day ≤ daysInMonth d.year d.month &&
  d.hour ≤ 23 && d.minute ≤ 59 && d.second ≤ 59

def digitChar (n : Nat) : Char :=
  Char.ofNat (48 + n)

def isDigitChar (c : Char) : Bool :=
  48 ≤ c.toNat && c.toNat ≤ 57

def pad2 (n : Nat) : List Char :=
  [digitChar (n / 10 % 10), digitChar (n % 10)]

def pad4 (n : Nat) : List Char :=
  [digitChar (n / 1000 % 10), digitChar (n / 100 % 10),
   digitChar (n / 10 % 10), digitChar (n % 10)]

/-- `t.Format(time.RFC3339)` for a UTC instant with whole seconds. -/
def formatRFC3339 (d : DateTime) : List Char :=
  pad4 d.year ++ '-' :: pad2 d.month ++ '-' :: pad2 d.day ++
  'T' :: pad2 d.hour ++ ':' :: pad2 d.minute ++ ':' :: pad2 d.second ++ ['Z']

/-- One element of the timestamp regular expression: a digit class or a
literal character. -/
inductive Pat where
  | digit
  | lit (c : Char)
deriving DecidableEq, Repr

/-- The regular expression `\d\x7b4\x7d-\d\x7b2\x7d-\d\x7b2\x7dT\d\x7b2\x7d:\d\x7b2\x7d:\d\x7b2\x7dZ`
as a fixed-length sequence of character classes. -/
def tsPattern : List Pat :=
  [.digit, .digit, .digit, .digit, .lit '-', .digit, .digit, .lit '-',
   .digit, .digit, .lit 'T', .digit, .digit, .lit ':', .digit, .digit,
   .lit ':', .digit, .digit, .lit 'Z']

def patMatches (p : Pat) (c : Char) : Bool :=
  match p with
  | .digit => isDigitChar c
  | .lit l => c = l

/-- Match the fixed-length pattern at the start of the input, returning the
matched characters. -/
def matchPat : List Pat → List Char → Option (List Char)
  | [], _ => some []
  | _ :: _, [] => none
  | p :: ps, c :: cs =>
    if patMatches p c then (matchPat ps cs).map (c :: ·)
    else none

/-- `regexp.FindString`: the leftmost match of `tsPattern`, `none` when there
is none (Go returns the empty string, which the caller treats as failure). -/
def findTimestamp : List Char → Option (List Char)
  | [] => none
  | c :: rest =>
    match matchPat tsPattern (c :: rest) with
    | some m => some m
    | none => findTimestamp rest

def parseDigit (c : Char) : Option Nat :=
  if isDigitChar c then some (c.toNat - 48) else none

def parse2 : List Char → Option (Nat × List Char)
  | a :: b :: rest =>
    match parseDigit a, parseDigit b with
    | some x, some y => some (10 * x + y, rest)
    | _, _ => none
  | _ => none

def parse4 : List Char → Option (Nat × List Char)
  | a :: b :: c :: d :: rest =>
    match parseDigit a, parseDigit b, parseDigit c, parseDigit d with
    | some x, some y, some z, some w => some (1000 * x + 100 * y + 10 * z + w, rest)
    | _, _, _, _ => none
  | _ => none

def expectChar (c : Char) : List Char → Option (List Char)
  | [] => none
  | d :: rest => if d = c then some rest else none

/-- `time.Parse(time.RFC3339, s)` restricted to the `YYYY-MM-DDTHH:MM:SSZ`
form the regular expression can deliver: structure plus field-range checks. -/
def parseRFC3339 (s : List Char) : Option DateTime :=
  match parse4 s with
  | none => none
  | some (y, r1) =>
  match expectChar '-' r1 with
  | none => none
  | some r2 =>
  match parse2 r2 with
  | none => none
  | some (mo, r3) =>
  match expectChar '-' r3 with
  | none => none
  | some r4 =>
  match parse2 r4 with
  | none => none
  | some (da, r5) =>
  match expectChar 'T' r5 with
  | none => none
  | some r6 =>
  match parse2 r6 with
  | none => none
  | some (h, r7) =>
  match expectChar ':' r7 with
  | none => none
  | some r8 =>
  match parse2 r8 with
  | none => none
  | some (mi, r9) =>
  match expectChar ':' r9 with
  | none => none
  | some r10 =>
  match parse2 r10 with
  | none => none
  | some (se, r11) =>
  match expectChar 'Z' r11 with
  | none => none
  | some r12 =>
    if r12 = [] then
      let dt : DateTime := ⟨y, mo, da, h, mi, se⟩
      if dt.valid then some dt else none
    else none

/-- A secrets-manager record: the secret string (absent right after a bare
`CreateSecret`) and the description field. -/
structure SecretRecord where
  value : Option String
  description : String
deriving DecidableEq, Repr

/-- The secrets-manager store: path to record. -/
def Store := String → Option SecretRecord

inductive AwsErr where
  | resourceExists
  | resourceNotFound
deriving DecidableEq, Repr

/-- The description `WriteSecret` stamps:
`fmt.Sprintf("Github credentials for Concourse. Last updated: %s", timestamp)`. -/
def descriptionFor (d : DateTime) : String :=
  "Github credentials for Concourse. Last updated: " ++ String.mk (formatRFC3339 d)

/-- `secretsmanager.CreateSecret`: fails with `ResourceExistsException` when a
record already exists at the path, otherwise creates a valueless record. -/
def createSecret (store : Store) (name desc : String) : Store × Except AwsErr Unit :=
  match store name with
  | some _ => (store, .error .resourceExists)
  | none =>
    ((fun n => if n = name then some ⟨none, desc⟩ else store n), .ok ())

/-- `secretsmanager.UpdateSecret`: fails with `ResourceNotFoundException` when
no record exists at the path, otherwise overwrites value and description. -/
def updateSecret (store : Store) (name desc value : String) : Store × Except AwsErr Unit :=
  match store name with
  | none => (store, .error .resourceNotFound)
  | some _ =>
    ((fun n => if n = name then some ⟨some value, desc⟩ else store n), .ok ())

/-- `Manager.WriteSecret`: create, tolerating only `ResourceExistsException`,
then update with the secret value; both calls stamp the same timestamped
description. -/
def WriteSecret (store : Store) (name secret : String) (now : DateTime) :
    Store × Except AwsErr Unit :=
  let desc := descriptionFor now
  let c := createSecret store name desc
  match c.2 with
  | .error e =>
    match e with
    | .resourceExists => updateSecret c.1 name desc secret
    | _ => (c.1, .error e)
  | .ok _ => updateSecret c.1 name desc secret

/-- `Manager.GetLastUpdated`: describe the secret (failing with not-found when
it is absent), find the timestamp in the description by the regular
expression, and parse it as RFC3339. -/
def GetLastUpdated (store : Store) (name : String) : Except SecretsErr DateTime :=
  match store name with
  | none => .error .notFound
  | some rec =>
    match findTimestamp rec.description.data with
    | none =>
      .error (.other ("failed to find timestamp in description: " ++ rec.description))
    | some ds =>
      match parseRFC3339 ds with
      | none => .error (.other "failed to parse timestamp")
      | some t => .ok t

/-! ### DynamoDB repository lister (pkg/dynamodb) -/

/-- `DynamoDBReposLister.List`: the table scan yields repository names (or
fails); every listed repository is built with `ReadOnly: false`. -/
def dynamoDBReposList (scan : Except String (List String)) :
    Except String (List Repo) :=
  match scan with
  | .error e => .error ("scanning DynamoDB table: " ++ e)
  | .ok items => .ok (items.map fun n => { name := n, readOnly := false })

/-- The reference key-path pattern `\x7b\x7bteam\x7d\x7d/\x7b\x7brepository\x7d\x7d`
written in the program's `text/template` field syntax. -/
def tmplTeamRepo : String :=
  "\x7b\x7b.Team\x7d\x7d/\x7b\x7b.Repository\x7d\x7d"

/-- A literal title template: renders to itself. -/
def titleLit : String := "concourse-t-deploy-key"

/-- Environment for the C1 witness: one fresh, flag-agreeing key. -/
def envC1 : Env where
  createAccessToken := .ok "tok"
  writeSecret := fun _ => .ok ()
  listRepos := .ok [⟨"svc-a", false⟩]
  listKeys := fun _ => .ok [⟨1, "concourse-t-deploy-key", some false⟩]
  getLastUpdated := fun _ => .ok 100
  generateKeyPair := fun _ => .ok ("priv", "pub")
  createKey := fun _ => .ok ()
  deleteKey := fun _ _ => .ok ()
  sevenDaysAgo := 50

/-- Environment for C3: the timestamp lookup fails for a reason other than
the secret being absent, while the single matching key agrees on flags. -/
def envC3 : Env where
  createAccessToken := .ok "tok"
  writeSecret := fun _ => .ok ()
  listRepos := .ok [⟨"svc-a", false⟩]
  listKeys := fun _ => .ok [⟨3, "concourse-t-deploy-key", some false⟩]
  getLastUpdated := fun _ => .error (.other "describe failed")
  generateKeyPair := fun _ => .ok ("priv", "pub")
  createKey := fun _ => .ok ()
  deleteKey := fun _ _ => .ok ()
  sevenDaysAgo := 50

/-- Environment for C4: the single matching key's read-only flag disagrees
with the repository's, and the secret was updated moments ago. -/
def envC4 : Env where
  createAccessToken := .ok "tok"
  writeSecret := fun _ => .ok ()
  listRepos := .ok [⟨"svc-a", false⟩]
  listKeys := fun _ => .ok [⟨2, "concourse-t-deploy-key", some true⟩]
  getLastUpdated := fun _ => .ok 100
  generateKeyPair := fun _ => .ok ("priv", "pub")
  createKey := fun _ => .ok ()
  deleteKey := fun _ _ => .ok ()
  sevenDaysAgo := 50

/-- Environment for C5: the secret is missing (not-found lookup) while the
single matching key agrees on flags. -/
def envC5 : Env where
  createAccessToken := .ok "tok"
  writeSecret := fun _ => .ok ()
  listRepos := .ok [⟨"svc-a", false⟩]
  listKeys := fun _ => .ok [⟨4, "concourse-t-deploy-key", some false⟩]
  getLastUpdated := fun _ => .error .notFound
  generateKeyPair := fun _ => .ok ("priv", "pub")
  createKey := fun _ => .ok ()
  deleteKey := fun _ _ => .ok ()
  sevenDaysAgo := 50

/-- Environment for the C2 witness: a full rotation including deletion. -/
def envC2 : Env where
  createAccessToken := .ok "tok"
  writeSecret := fun _ => .ok ()
  listRepos := .ok [⟨"svc-a", false⟩]
  listKeys := fun _ => .ok [⟨9, "concourse-t-deploy-key", some true⟩]
  getLastUpdated := fun _ => .ok 100
  generateKeyPair := fun _ => .ok ("priv", "pub")
  createKey := fun _ => .ok ()
  deleteKey := fun _ _ => .ok ()
  sevenDaysAgo := 50

/-- Environment for C6: two repositories, all external calls succeeding. -/
def envC6 : Env where
  createAccessToken := .ok "tok"
  writeSecret := fun _ => .ok ()
  listRepos := .ok [⟨"r1", false⟩, ⟨"r2", false⟩]
  listKeys := fun _ => .ok []
  getLastUpdated := fun _ => .ok 100
  generateKeyPair := fun _ => .ok ("priv", "pub")
  createKey := fun _ => .ok ()
  deleteKey := fun _ _ => .ok ()
  sevenDaysAgo := 50

/-- Environment for C7: token issuance fails. -/
def envC7 : Env where
  createAccessToken := .error "boom"
  writeSecret := fun _ => .ok ()
  listRepos := .ok [⟨"r1", false⟩]
  listKeys := fun _ => .ok []
  getLastUpdated := fun _ => .ok 100
  generateKeyPair := fun _ => .ok ("priv", "pub")
  createKey := fun _ => .ok ()
  deleteKey := fun _ _ => .ok ()
  sevenDaysAgo := 50

/-- The reference instant for the C9 witness. -/
def dW : DateTime := ⟨2026, 10, 11, 12, 34, 56⟩

/-! ### Lemmas about the key loop -/

/-- Every event the key loop itself emits is a timestamp lookup at the
repository's key path. -/
theorem keyLoop_events (env : Env) (r : Repo) (title keyPath : String) :
    ∀ (keys : List GithubKey) (old : Option GithubKey),
      ∀ e ∈ (keyLoop env r title keyPath keys old).1, e = Event.getLastUpdated keyPath := by
  intro keys
  induction keys with
  | nil => intro old e he; simp [keyLoop] at he
  | cons key rest ih =>
    intro old e he
    rw [keyLoop] at he
    split at he
    · split at he
      · simp at he
      · split at he
        · simp at he; exact he
        · simp at he; exact he
        · split at he
          · simp at he; exact he
          · simp only [List.mem_cons] at he
            rcases he with he | he
            · exact he
            · exact ih (some _) e he
    · exact ih old e he

/-- The final `oldKey` of the key loop is either a listed key whose title
matches, or the value the loop started from. -/
theorem keyLoop_old (env : Env) (r : Repo) (title keyPath : String) :
    ∀ (keys : List GithubKey) (old : Option GithubKey) (k : GithubKey),
      (keyLoop env r title keyPath keys old).2.1 = some k →
      (k ∈ keys ∧ k.title = title) ∨ old = some k := by
  intro keys
  induction keys with
  | nil => intro old k h; simp [keyLoop] at h; right; rw [h]
  | cons key rest ih =>
    intro old k h
    rw [keyLoop] at h
    split at h
    next hTitle =>
      split at h
      · simp at h; left; rw [← h]; exact ⟨List.mem_cons_self .., hTitle⟩
      · split at h
        · simp at h; left; rw [← h]; exact ⟨List.mem_cons_self .., hTitle⟩
        · simp at h; left; rw [← h]; exact ⟨List.mem_cons_self .., hTitle⟩
        · split at h
          · simp at h; left; rw [← h]; exact ⟨List.mem_cons_self .., hTitle⟩
          · simp only at h
            rcases ih (some key) k h with ⟨hm, ht⟩ | hold
            · exact Or.inl ⟨List.mem_cons_of_mem _ hm, ht⟩
            · left
              have : key = k := by injection hold
              rw [← this]; exact ⟨List.mem_cons_self .., hTitle⟩
    next hTitle =>
      rcases ih old k h with ⟨hm, ht⟩ | hold
      · exact Or.inl ⟨List.mem_cons_of_mem _ hm, ht⟩
      · exact Or.inr hold

/-- When no listed key's title matches, the loop performs no lookup and falls
through to rotation with `oldKey` untouched. -/
theorem keyLoop_noMatch (env : Env) (r : Repo) (title keyPath : String) :
    ∀ (keys : List GithubKey) (old : Option GithubKey),
      (∀ x ∈ keys, x.title ≠ title) →
      keyLoop env r title keyPath keys old = ([], old, true) := by
  intro keys
  induction keys with
  | nil => intro old _; rfl
  | cons key rest ih =>
    intro old hno
    rw [keyLoop]
    rw [if_neg (hno key (List.mem_cons_self ..))]
    exact ih old fun x hx => hno x (List.mem_cons_of_mem _ hx)

/-- When exactly one listed key's title matches, the outcome of the loop is
decided by that key and the timestamp lookup, exactly as the handler's
decision policy reads. -/
theorem keyLoop_uniqueMatch (env : Env) (r : Repo) (title keyPath : String) :
    ∀ (keys : List GithubKey) (old : Option GithubKey) (k : GithubKey),
      keys.filter (fun x => decide (x.title = title)) = [k] →
      keyLoop env r title keyPath keys old =
        (if flagMismatch k r then ([], some k, true)
         else
           match env.getLastUpdated keyPath with
           | .error .notFound => ([.getLastUpdated keyPath], some k, true)
           | .error (.other _) => ([.getLastUpdated keyPath], some k, true)
           | .ok updated =>
             if env.sevenDaysAgo < updated then
               ([.getLastUpdated keyPath], some k, false)
             else ([.getLastUpdated keyPath], some k, true)) := by
  intro keys
  induction keys with
  | nil => intro old k hk; simp at hk
  | cons key rest ih =>
    intro old k hfilter
    by_cases hTitle : key.title = title
    · rw [List.filter_cons_of_pos (by simpa using hTitle)] at hfilter
      have hkey : key = k := by
        have := List.head_eq_of_cons_eq hfilter
        simpa using this
      have hfrest : rest.filter (fun x => decide (x.title = title)) = [] :=
        List.tail_eq_of_cons_eq hfilter
      have hrest : ∀ x ∈ rest, x.title ≠ title := by
        intro x hx hxt
        have := List.filter_eq_nil_iff.mp hfrest x hx
        simp [hxt] at this
      subst hkey
      rw [keyLoop, if_pos hTitle]
      split
      · rfl
      · split
        · rfl
        · rfl
        · split
          · rfl
          · rw [keyLoop_noMatch env r title keyPath rest (some key) hrest]
    · rw [List.filter_cons_of_neg (by simpa using hTitle)] at hfilter
      rw [keyLoop, if_neg hTitle]
      exact ih old k hfilter

/-- When some listed key's title matches, every title-matching key carries the
repository's read-only flag, and the timestamp lookup returns a fresh instant,
the loop takes the `continue Loop` branch: one lookup, no rotation. -/
theorem keyLoop_freshSkip (env : Env) (r : Repo) (title keyPath : String) :
    ∀ (keys : List GithubKey) (old : Option GithubKey) (t : Int),
      (∃ x ∈ keys, x.title = title) →
      (∀ x ∈ keys, x.title = title → x.readOnly = some r.readOnly) →
      env.getLastUpdated keyPath = .ok t →
      env.sevenDaysAgo < t →
      ∃ k, keyLoop env r title keyPath keys old =
        ([.getLastUpdated keyPath], some k, false) := by
  intro keys
  induction keys with
  | nil => intro old t hex; simp at hex
  | cons key rest ih =>
    intro old t hex hall hts hfresh
    by_cases hTitle : key.title = title
    · refine ⟨key, ?_⟩
      have hro : key.readOnly = some r.readOnly :=
        hall key (List.mem_cons_self ..) hTitle
      rw [keyLoop, if_pos hTitle,
        if_neg (by simp [flagMismatch, hro] : ¬flagMismatch key r = true), hts]
      simp [hfresh]
    · rcases hex with ⟨x, hx, hxt⟩
      have hxrest : x ∈ rest := by
        rcases List.mem_cons.mp hx with h | h
        · exact absurd (h ▸ hxt) hTitle
        · exact h
      rw [keyLoop, if_neg hTitle]
      exact ih old t ⟨x, hxrest, hxt⟩
        (fun y hy => hall y (List.mem_cons_of_mem _ hy)) hts hfresh

/-! ### Round-trip lemmas for the timestamp encoding -/

theorem digitChar_isDigit (k : Nat) (h : k < 10) :
    isDigitChar (digitChar k) = true := by
  interval_cases k <;> decide

theorem parseDigit_digitChar (k : Nat) (h : k < 10) :
    parseDigit (digitChar k) = some k := by
  interval_cases k <;> decide

theorem isDigit_mod (x : Nat) : isDigitChar (digitChar (x % 10)) = true :=
  digitChar_isDigit _ (Nat.mod_lt _ (by norm_num))

theorem parseDigit_mod (x : Nat) : parseDigit (digitChar (x % 10)) = some (x % 10) :=
  parseDigit_digitChar _ (Nat.mod_lt _ (by norm_num))

theorem parse2_pad2 (n : Nat) (r : List Char) (h : n ≤ 99) :
    parse2 (pad2 n ++ r) = some (n, r) := by
  simp [pad2, parse2, parseDigit_mod]
  omega

theorem parse4_pad4 (n : Nat) (r : List Char) (h : n ≤ 9999) :
    parse4 (pad4 n ++ r) = some (n, r) := by
  simp [pad4, parse4, parseDigit_mod]
  omega

theorem matchPat_format (d : DateTime) :
    matchPat tsPattern (formatRFC3339 d) = some (formatRFC3339 d) := by
  simp +decide [formatRFC3339, pad4, pad2, tsPattern, matchPat, patMatches,
    isDigit_mod]

theorem findTimestamp_of_match (l m : List Char) (hne : l ≠ [])
    (hm : matchPat tsPattern l = some m) : findTimestamp l = some m := by
  cases l with
  | nil => exact absurd rfl hne
  | cons c rest => rw [findTimestamp, hm]

theorem findTimestamp_append (pre l : List Char)
    (hpre : ∀ c ∈ pre, isDigitChar c = false) :
    findTimestamp (pre ++ l) = findTimestamp l := by
  induction pre with
  | nil => rfl
  | cons c pre ih =>
    have hc : isDigitChar c = false := hpre c (List.mem_cons_self ..)
    rw [List.cons_append, findTimestamp]
    have hnone : matchPat tsPattern (c :: (pre ++ l)) = none := by
      simp [tsPattern, matchPat, patMatches, hc]
    rw [hnone]
    exact ih fun x hx => hpre x (List.mem_cons_of_mem _ hx)

theorem daysInMonth_le (y m : Nat) : daysInMonth y m ≤ 31 := by
  rw [daysInMonth]
  split
  · split <;> norm_num
  · split <;> norm_num

theorem parse_format (d : DateTime) (hv : d.valid = true) :
    parseRFC3339 (formatRFC3339 d) = some d := by
  simp only [DateTime.valid, Bool.and_eq_true, decide_eq_true_eq] at hv
  obtain ⟨⟨⟨⟨⟨⟨⟨hy, hm1⟩, hm2⟩, hd1⟩, hd2⟩, hh⟩, hmi⟩, hs⟩ := hv
  simp only [formatRFC3339, List.cons_append, List.append_assoc, parseRFC3339]
  rw [parse4_pad4 _ _ hy]
  simp only [expectChar, if_pos]
  rw [parse2_pad2 _ _ (by omega)]
  simp only [expectChar, if_pos]
  rw [parse2_pad2 _ _ (by have := daysInMonth_le d.year d.month; omega)]
  simp only [expectChar, if_pos]
  rw [parse2_pad2 _ _ (by omega)]
  simp only [expectChar, if_pos]
  rw [parse2_pad2 _ _ (by omega)]
  simp only [expectChar, if_pos]
  rw [parse2_pad2 _ _ (by omega)]
  simp only [expectChar, if_pos]
  simp [DateTime.valid, hy, hm1, hm2, hd1, hd2, hh, hmi, hs]

/-! ### Claims -/

/-- C1: for a repository whose listed deploy keys contain a key with the
team's derived title, every such title-matching key carrying exactly the
repository's declared read-only flag, and whose secret's last-updated instant
is within the 7-day freshness window, the per-team run performs no mutating
call for that repository (no GenerateKeyPair, CreateKey, WriteSecret or
DeleteKey): a repeated run inside the window makes zero upstream writes. -/
theorem c1_fresh_window_no_writes (env : Env) (team org keyTemplate titleTemplate : String)
    (r : Repo) (keyPath title : String) (keys : List GithubKey) (t : Int)
    (hkp : (NewTemplate team r.name org keyTemplate).render = some keyPath)
    (ht : (NewTemplate team r.name org titleTemplate).render = some title)
    (hkeys : env.listKeys r.name = .ok keys)
    (hex : ∃ x ∈ keys, x.title = title)
    (hall : ∀ x ∈ keys, x.title = title → x.readOnly = some r.readOnly)
    (hts : env.getLastUpdated keyPath = .ok t)
    (hfresh : env.sevenDaysAgo < t) :
    (handleRepo env team org keyTemplate titleTemplate r).any Event.isMutating = false := by
  obtain ⟨k, hk⟩ := keyLoop_freshSkip env r title keyPath keys none t hex hall hts hfresh
  simp [handleRepo, hkp, ht, hkeys, hk, Event.isMutating]

/-- Witness for C1 at a concrete environment. -/
theorem c1_witness :
    (handleRepo envC1 "t" "org" tmplTeamRepo titleLit ⟨"svc-a", false⟩).any
      Event.isMutating = false :=
  c1_fresh_window_no_writes envC1 "t" "org" tmplTeamRepo titleLit ⟨"svc-a", false⟩
    "t/svc-a" "concourse-t-deploy-key" [⟨1, "concourse-t-deploy-key", some false⟩] 100
    (by decide) (by decide) rfl (by decide) (by decide) rfl (by decide)

/-- C3 counterexample: with a flag-agreeing matching key and a timestamp
lookup failing for a reason other than not-found, the handler does perform
mutating calls for the repository — the claimed `Skip` (no mutating call)
is false on the code, which breaks out of the key loop and rotates. -/
theorem c3_counterexample :
    (handleRepo envC3 "t" "org" tmplTeamRepo titleLit ⟨"svc-a", false⟩).any
      Event.isMutating = true := by decide

/-- C3 amended: when the timestamp lookup for a flag-agreeing matching key
fails for any reason other than the secret not existing, the handler logs the
failure and rotates the repository immediately — the same generate, publish,
persist, delete sequence as the not-found case — and the run continues with
the remaining repositories (the repository body never aborts the run). -/
theorem c3_lookup_error_rotates (env : Env) (team org keyTemplate titleTemplate : String)
    (r : Repo) (keyPath title : String) (keys : List GithubKey) (k : GithubKey)
    (msg priv pub : String)
    (hkp : (NewTemplate team r.name org keyTemplate).render = some keyPath)
    (ht : (NewTemplate team r.name org titleTemplate).render = some title)
    (hkeys : env.listKeys r.name = .ok keys)
    (hfilter : keys.filter (fun x => decide (x.title = title)) = [k])
    (hnm : flagMismatch k r = false)
    (herr : env.getLastUpdated keyPath = .error (.other msg))
    (hgen : env.generateKeyPair title = .ok (priv, pub))
    (hck : env.createKey r.name = .ok ())
    (hws : env.writeSecret keyPath = .ok ()) :
    handleRepo env team org keyTemplate titleTemplate r =
      [.listKeys org r.name, .getLastUpdated keyPath, .generateKeyPair title,
       .createKey org r.name r.readOnly title, .writeSecret keyPath,
       .sleep, .deleteKey org r.name k.id] := by
  have hloop := keyLoop_uniqueMatch env r title keyPath keys none k hfilter
  rw [hnm] at hloop
  simp only [Bool.false_eq_true, if_false, herr] at hloop
  simp [handleRepo, hkp, ht, hkeys, hloop, hgen, hck, hws]

/-- Witness for C3's amended theorem at the concrete C3 environment. -/
theorem c3_witness :
    handleRepo envC3 "t" "org" tmplTeamRepo titleLit ⟨"svc-a", false⟩ =
      [.listKeys "org" "svc-a", .getLastUpdated "t/svc-a",
       .generateKeyPair "concourse-t-deploy-key",
       .createKey "org" "svc-a" false "concourse-t-deploy-key",
       .writeSecret "t/svc-a", .sleep, .deleteKey "org" "svc-a" 3] :=
  c3_lookup_error_rotates envC3 "t" "org" tmplTeamRepo titleLit ⟨"svc-a", false⟩
    "t/svc-a" "concourse-t-deploy-key" [⟨3, "concourse-t-deploy-key", some false⟩]
    ⟨3, "concourse-t-deploy-key", some false⟩ "describe failed" "priv" "pub"
    (by decide) (by decide) rfl (by decide) (by decide) rfl rfl rfl rfl

/-- C4: when the single title-matching key's read-only flag differs from the
repository's declared flag, the handler rotates — generates a pair, publishes
it with the repository's flag, persists the private half, waits, deletes the
old key — and the trace contains no timestamp lookup at all, so rotation
happens however fresh the secret is. -/
theorem c4_flag_mismatch_rotates (env : Env) (team org keyTemplate titleTemplate : String)
    (r : Repo) (keyPath title : String) (keys : List GithubKey) (k : GithubKey)
    (b : Bool) (priv pub : String)
    (hkp : (NewTemplate team r.name org keyTemplate).render = some keyPath)
    (ht : (NewTemplate team r.name org titleTemplate).render = some title)
    (hkeys : env.listKeys r.name = .ok keys)
    (hfilter : keys.filter (fun x => decide (x.title = title)) = [k])
    (hro : k.readOnly = some b)
    (hb : b ≠ r.readOnly)
    (hgen : env.generateKeyPair title = .ok (priv, pub))
    (hck : env.createKey r.name = .ok ())
    (hws : env.writeSecret keyPath = .ok ()) :
    handleRepo env team org keyTemplate titleTemplate r =
      [.listKeys org r.name, .generateKeyPair title,
       .createKey org r.name r.readOnly title, .writeSecret keyPath,
       .sleep, .deleteKey org r.name k.id] := by
  have hmm : flagMismatch k r = true := by
    simp [flagMismatch, hro, bne_iff_ne]
    exact hb
  have hloop := keyLoop_uniqueMatch env r title keyPath keys none k hfilter
  rw [hmm] at hloop
  simp only [if_true] at hloop
  simp [handleRepo, hkp, ht, hkeys, hloop, hgen, hck, hws]

/-- Witness for C4 at the concrete C4 environment. -/
theorem c4_witness :
    handleRepo envC4 "t" "org" tmplTeamRepo titleLit ⟨"svc-a", false⟩ =
      [.listKeys "org" "svc-a", .generateKeyPair "concourse-t-deploy-key",
       .createKey "org" "svc-a" false "concourse-t-deploy-key",
       .writeSecret "t/svc-a", .sleep, .deleteKey "org" "svc-a" 2] :=
  c4_flag_mismatch_rotates envC4 "t" "org" tmplTeamRepo titleLit ⟨"svc-a", false⟩
    "t/svc-a" "concourse-t-deploy-key" [⟨2, "concourse-t-deploy-key", some true⟩]
    ⟨2, "concourse-t-deploy-key", some true⟩ true "priv" "pub"
    (by decide) (by decide) rfl (by decide) rfl (by decide) rfl rfl rfl

/-- C5: when the flag-agreeing matching key's secret lookup fails because no
secret exists at the derived path, the handler rotates immediately rather
than skipping: it generates, publishes and persists a new pair (and retires
the old key). -/
theorem c5_not_found_rotates (env : Env) (team org keyTemplate titleTemplate : String)
    (r : Repo) (keyPath title : String) (keys : List GithubKey) (k : GithubKey)
    (priv pub : String)
    (hkp : (NewTemplate team r.name org keyTemplate).render = some keyPath)
    (ht : (NewTemplate team r.name org titleTemplate).render = some title)
    (hkeys : env.listKeys r.name = .ok keys)
    (hfilter : keys.filter (fun x => decide (x.title = title)) = [k])
    (hro : k.readOnly = some r.readOnly)
    (hnf : env.getLastUpdated keyPath = .error .notFound)
    (hgen : env.generateKeyPair title = .ok (priv, pub))
    (hck : env.createKey r.name = .ok ())
    (hws : env.writeSecret keyPath = .ok ()) :
    handleRepo env team org keyTemplate titleTemplate r =
      [.listKeys org r.name, .getLastUpdated keyPath, .generateKeyPair title,
       .createKey org r.name r.readOnly title, .writeSecret keyPath,
       .sleep, .deleteKey org r.name k.id] := by
  have hnm : flagMismatch k r = false := by simp [flagMismatch, hro]
  have hloop := keyLoop_uniqueMatch env r title keyPath keys none k hfilter
  rw [hnm] at hloop
  simp only [Bool.false_eq_true, if_false, hnf] at hloop
  simp [handleRepo, hkp, ht, hkeys, hloop, hgen, hck, hws]

/-- Witness for C5 at the concrete C5 environment. -/
theorem c5_witness :
    handleRepo envC5 "t" "org" tmplTeamRepo titleLit ⟨"svc-a", false⟩ =
      [.listKeys "org" "svc-a", .getLastUpdated "t/svc-a",
       .generateKeyPair "concourse-t-deploy-key",
       .createKey "org" "svc-a" false "concourse-t-deploy-key",
       .writeSecret "t/svc-a", .sleep, .deleteKey "org" "svc-a" 4] :=
  c5_not_found_rotates envC5 "t" "org" tmplTeamRepo titleLit ⟨"svc-a", false⟩
    "t/svc-a" "concourse-t-deploy-key" [⟨4, "concourse-t-deploy-key", some false⟩]
    ⟨4, "concourse-t-deploy-key", some false⟩ "priv" "pub"
    (by decide) (by decide) rfl (by decide) rfl rfl rfl rfl rfl

/-- C2: whenever the handler deletes a deploy key for a repository, an old
key with the team's derived title was among the listed keys and carries the
deleted id, the new public key had been published successfully and the new
private key persisted successfully, both strictly before the deletion, and
the fixed grace wait sits immediately between persisting and deleting. -/
theorem c2_delete_only_after_publish_persist (env : Env)
    (team org keyTemplate titleTemplate : String) (r : Repo) (i : Int)
    (hdel : Event.deleteKey org r.name i ∈
      handleRepo env team org keyTemplate titleTemplate r) :
    ∃ (keyPath title : String) (keys : List GithubKey) (k : GithubKey)
      (l : List Event),
      (NewTemplate team r.name org keyTemplate).render = some keyPath ∧
      (NewTemplate team r.name org titleTemplate).render = some title ∧
      env.listKeys r.name = .ok keys ∧
      k ∈ keys ∧ k.title = title ∧ k.id = i ∧
      env.createKey r.name = .ok () ∧
      env.writeSecret keyPath = .ok () ∧
      Event.createKey org r.name r.readOnly title ∈ l ∧
      Event.writeSecret keyPath ∈ l ∧
      handleRepo env team org keyTemplate titleTemplate r =
        l ++ [Event.sleep, Event.deleteKey org r.name i] := by
  cases hkp : (NewTemplate team r.name org keyTemplate).render with
  | none => rw [handleRepo, hkp] at hdel; simp at hdel
  | some keyPath =>
  cases ht : (NewTemplate team r.name org titleTemplate).render with
  | none => rw [handleRepo, hkp, ht] at hdel; simp at hdel
  | some title =>
  cases hkeys : env.listKeys r.name with
  | error e => rw [handleRepo, hkp, ht, hkeys] at hdel; simp at hdel
  | ok keys =>
  have hevents := keyLoop_events env r title keyPath keys none
  have holdk := keyLoop_old env r title keyPath keys none
  rcases hout : keyLoop env r title keyPath keys none with ⟨evs, old, rot⟩
  rw [hout] at hevents holdk
  simp only at hevents holdk
  have hnodel : Event.deleteKey org r.name i ∉ evs := by
    intro hmem
    have := hevents _ hmem
    simp at this
  rw [handleRepo, hkp, ht, hkeys] at hdel
  simp only [hout] at hdel
  cases rot with
  | false =>
    simp at hdel
    exact absurd hdel hnodel
  | true =>
    cases hgen : env.generateKeyPair title with
    | error e =>
      rw [hgen] at hdel
      simp at hdel
      exact absurd hdel hnodel
    | ok pq =>
    rw [hgen] at hdel
    cases hck : env.createKey r.name with
    | error e =>
      rw [hck] at hdel
      simp at hdel
      exact absurd hdel hnodel
    | ok u =>
    rw [hck] at hdel
    cases hws : env.writeSecret keyPath with
    | error e =>
      rw [hws] at hdel
      simp at hdel
      exact absurd hdel hnodel
    | ok v =>
    rw [hws] at hdel
    cases hold : old with
    | none =>
      rw [hold] at hdel
      simp at hdel
      exact absurd hdel hnodel
    | some k =>
    rw [hold] at hdel
    have hid : i = k.id := by
      simp at hdel
      rcases hdel with h | h
      · exact absurd h hnodel
      · exact h
    rcases holdk k (by rw [hold]) with ⟨hkmem, hktitle⟩ | habs
    · cases u
      cases v
      refine ⟨keyPath, title, keys, k,
        (Event.listKeys org r.name :: evs) ++
          [Event.generateKeyPair title, Event.createKey org r.name r.readOnly title,
           Event.writeSecret keyPath], ?_⟩
      refine ⟨rfl, rfl, rfl, hkmem, hktitle, hid.symm, rfl, hws, ?_, ?_, ?_⟩
      · simp
      · simp
      · rw [handleRepo, hkp, ht, hkeys]
        simp only [hout, Bool.true_eq_false, if_false, hgen, hck, hws, hold]
        simp [hid]
    · simp at habs

/-- Witness for C2 at the concrete C2 environment, where rotation deletes the
old key with id 9. -/
theorem c2_witness :
    ∃ (keyPath title : String) (keys : List GithubKey) (k : GithubKey)
      (l : List Event),
      (NewTemplate "t" "svc-a" "org" tmplTeamRepo).render = some keyPath ∧
      (NewTemplate "t" "svc-a" "org" titleLit).render = some title ∧
      envC2.listKeys "svc-a" = .ok keys ∧
      k ∈ keys ∧ k.title = title ∧ k.id = 9 ∧
      envC2.createKey "svc-a" = .ok () ∧
      envC2.writeSecret keyPath = .ok () ∧
      Event.createKey "org" "svc-a" false title ∈ l ∧
      Event.writeSecret keyPath ∈ l ∧
      handleRepo envC2 "t" "org" tmplTeamRepo titleLit ⟨"svc-a", false⟩ =
        l ++ [Event.sleep, Event.deleteKey "org" "svc-a" 9] :=
  c2_delete_only_after_publish_persist envC2 "t" "org" tmplTeamRepo titleLit
    ⟨"svc-a", false⟩ 9 (by decide)

/-- C6 counterexample: with an unresolvable per-repository title template
(a ConfigurationError for every repository) the team run is not aborted at
all — it completes with success after the token phase, contradicting the
claim that every ConfigurationError is fatal for the team run. -/
theorem c6_counterexample :
    (NewTemplate "t" "r1" "org" "\x7b\x7b.Bogus\x7d\x7d").render = none ∧
    runTeam envC6 "t" "org" "tok-path" tmplTeamRepo "\x7b\x7b.Bogus\x7d\x7d" =
      ([.createAccessToken "org", .writeSecret "tok-path", .listRepos], .ok ()) :=
  ⟨rfl, rfl⟩

/-- C6 amended: only a ConfigurationError in the token path template is
fatal (empty trace, team-level error); a ConfigurationError when resolving a
repository's key path or title merely skips that repository — its body
contributes no events and the run moves on to the remaining repositories. -/
theorem c6_config_error_scopes :
    (∀ (env : Env) (team org tokenT keyT titleT : String),
      (NewTemplateWithoutRepository team org tokenT).render = none →
      runTeam env team org tokenT keyT titleT =
        ([], .error "parsing token path template")) ∧
    (∀ (env : Env) (team org keyT titleT : String) (r : Repo),
      (NewTemplate team r.name org keyT).render = none →
      handleRepo env team org keyT titleT r = []) ∧
    (∀ (env : Env) (team org keyT titleT : String) (r : Repo) (keyPath : String),
      (NewTemplate team r.name org keyT).render = some keyPath →
      (NewTemplate team r.name org titleT).render = none →
      handleRepo env team org keyT titleT r = []) := by
  refine ⟨?_, ?_, ?_⟩
  · intro env team org tokenT keyT titleT h
    rw [runTeam, h]
  · intro env team org keyT titleT r h
    rw [handleRepo, h]
  · intro env team org keyT titleT r keyPath h1 h2
    rw [handleRepo, h1, h2]

/-- Witness for C6's amended theorem: a bad token template aborts the run;
a bad repository key-path or title template only empties that repository's
contribution. -/
theorem c6_witness :
    runTeam envC6 "t" "org" "\x7b\x7b.Bogus\x7d\x7d" tmplTeamRepo titleLit =
      ([], .error "parsing token path template") ∧
    handleRepo envC6 "t" "org" "\x7b\x7b.Bogus\x7d\x7d" titleLit ⟨"r1", false⟩ = [] ∧
    handleRepo envC6 "t" "org" tmplTeamRepo "\x7b\x7b.Bogus\x7d\x7d" ⟨"r1", false⟩ = [] :=
  ⟨c6_config_error_scopes.1 envC6 "t" "org" "\x7b\x7b.Bogus\x7d\x7d" tmplTeamRepo
      titleLit (by decide),
   c6_config_error_scopes.2.1 envC6 "t" "org" "\x7b\x7b.Bogus\x7d\x7d" titleLit
      ⟨"r1", false⟩ (by decide),
   c6_config_error_scopes.2.2 envC6 "t" "org" tmplTeamRepo "\x7b\x7b.Bogus\x7d\x7d"
      ⟨"r1", false⟩ "t/r1" (by decide) (by decide)⟩

/-- C7: a failing token-path resolution, token issuance or token write ends
the run with an error whose trace contains neither a repository listing nor
any per-repository call; and once the path resolves, the token is requested
on every invocation (the trace always contains the CreateAccessToken call —
no staleness check is consulted). -/
theorem c7_token_phase_fatal (env : Env)
    (team org tokenTemplate keyTemplate titleTemplate tokenPath : String) :
    ((NewTemplateWithoutRepository team org tokenTemplate).render = none →
      runTeam env team org tokenTemplate keyTemplate titleTemplate =
        ([], .error "parsing token path template")) ∧
    ((NewTemplateWithoutRepository team org tokenTemplate).render =
        some tokenPath →
      (∀ e, env.createAccessToken = .error e →
        runTeam env team org tokenTemplate keyTemplate titleTemplate =
          ([.createAccessToken org], .error "creating access token")) ∧
      (∀ tok e, env.createAccessToken = .ok tok →
        env.writeSecret tokenPath = .error e →
        runTeam env team org tokenTemplate keyTemplate titleTemplate =
          ([.createAccessToken org, .writeSecret tokenPath],
           .error "writing access token")) ∧
      Event.createAccessToken org ∈
        (runTeam env team org tokenTemplate keyTemplate titleTemplate).1) := by
  constructor
  · intro h
    rw [runTeam, h]
  · intro htp
    refine ⟨?_, ?_, ?_⟩
    · intro e he
      simp [runTeam, htp, he]
    · intro tok e h1 h2
      simp [runTeam, htp, h1, h2]
    · cases hc : env.createAccessToken with
      | error e => simp [runTeam, htp, hc]
      | ok tok =>
        cases hw : env.writeSecret tokenPath with
        | error e => simp [runTeam, htp, hc, hw]
        | ok u =>
          cases hl : env.listRepos with
          | error e => simp [runTeam, htp, hc, hw, hl]
          | ok repos => simp [runTeam, htp, hc, hw, hl]

/-- Witness for C7: failing token issuance aborts the run before listing,
and an unresolvable token path aborts it with an empty trace. -/
theorem c7_witness :
    runTeam envC7 "t" "org" "tok-path" tmplTeamRepo titleLit =
      ([.createAccessToken "org"], .error "creating access token") ∧
    runTeam envC7 "t" "org" "\x7b\x7b.Bogus\x7d\x7d" tmplTeamRepo titleLit =
      ([], .error "parsing token path template") :=
  ⟨((c7_token_phase_fatal envC7 "t" "org" "tok-path" tmplTeamRepo titleLit
      "tok-path").2 (by decide)).1 "boom" rfl,
   (c7_token_phase_fatal envC7 "t" "org" "\x7b\x7b.Bogus\x7d\x7d" tmplTeamRepo
      titleLit "unused").1 (by decide)⟩

/-- C8: the repository-including template entry point replaces every dot in
the repository name with a dash before resolution; rendering the
team/repository path pattern yields the team and the sanitised name, and in
particular repository `foo.bar` with team `x` resolves to `x/foo-bar`. -/
theorem c8_repo_name_sanitised (team repoName owner pat : String) :
    (NewTemplate team repoName owner pat).Repository = sanitizeRepoName repoName ∧
    (NewTemplate team repoName owner tmplTeamRepo).render =
      some (team ++ "/" ++ sanitizeRepoName repoName) ∧
    (NewTemplate "x" "foo.bar" "org" tmplTeamRepo).render = some "x/foo-bar" := by
  refine ⟨rfl, ?_, by decide⟩
  simp only [NewTemplate, Template.render, tmplTeamRepo]
  simp +decide [renderChars, closeAct, evalAct, fieldValue, String.append_assoc]

/-- C9: WriteSecret succeeds whether or not a record already exists at the
path (create-or-update), leaves the secret value and a description stamped
with the RFC3339 timestamp, and GetLastUpdated parses back exactly the
timestamp that was written. -/
theorem c9_write_read_roundtrip (store : Store) (name secret : String)
    (d : DateTime) (hv : d.valid = true) :
    (WriteSecret store name secret d).2 = .ok () ∧
    (WriteSecret store name secret d).1 name =
      some ⟨some secret, descriptionFor d⟩ ∧
    GetLastUpdated (WriteSecret store name secret d).1 name = .ok d := by
  have hstore : (WriteSecret store name secret d).1 name =
      some ⟨some secret, descriptionFor d⟩ ∧
      (WriteSecret store name secret d).2 = .ok () := by
    cases hs : store name with
    | none => simp [WriteSecret, createSecret, updateSecret, hs]
    | some rec => simp [WriteSecret, createSecret, updateSecret, hs]
  have hdata : (descriptionFor d).data =
      ("Github credentials for Concourse. Last updated: " : String).data ++
        formatRFC3339 d := by
    simp [descriptionFor, String.data_append]
  have hpre : ∀ c ∈ ("Github credentials for Concourse. Last updated: " : String).data,
      isDigitChar c = false := by decide
  have hfind : findTimestamp (descriptionFor d).data = some (formatRFC3339 d) := by
    rw [hdata, findTimestamp_append _ _ hpre]
    exact findTimestamp_of_match _ _ (by simp [formatRFC3339, pad4]) (matchPat_format d)
  refine ⟨hstore.2, hstore.1, ?_⟩
  simp [GetLastUpdated, hstore.1, hfind, parse_format d hv]

/-- Witness for C9 on an empty store at a concrete instant. -/
theorem c9_witness :
    (WriteSecret (fun _ => none) "concourse/t/repo" "PRIVATE" dW).2 = .ok () ∧
    (WriteSecret (fun _ => none) "concourse/t/repo" "PRIVATE" dW).1
      "concourse/t/repo" = some ⟨some "PRIVATE", descriptionFor dW⟩ ∧
    GetLastUpdated (WriteSecret (fun _ => none) "concourse/t/repo" "PRIVATE" dW).1
      "concourse/t/repo" = .ok dW :=
  c9_write_read_roundtrip (fun _ => none) "concourse/t/repo" "PRIVATE" dW (by decide)

/-- C10: every repository the DynamoDB lister returns carries
`ReadOnly = false`, whatever the table scan yielded; consequently the
handler's flag-mismatch test can fire for such a repository only on an
existing deploy key whose read-only flag is `true`. -/
theorem c10_lister_read_only_false :
    (∀ (scan : Except String (List String)) (repos : List Repo),
      dynamoDBReposList scan = .ok repos → ∀ r ∈ repos, r.readOnly = false) ∧
    (∀ (r : Repo) (k : GithubKey), r.readOnly = false →
      flagMismatch k r = true → k.readOnly = some true) := by
  constructor
  · intro scan repos hscan r hr
    cases scan with
    | error e => simp [dynamoDBReposList] at hscan
    | ok items =>
      simp only [dynamoDBReposList, Except.ok.injEq] at hscan
      subst hscan
      simp only [List.mem_map] at hr
      obtain ⟨n, _, rfl⟩ := hr
      rfl
  · intro r k hro hmm
    cases hk : k.readOnly with
    | none => simp [flagMismatch, hk] at hmm
    | some b =>
      simp only [flagMismatch, hk, hro, bne_iff_ne, ne_eq] at hmm
      cases b with
      | false => exact absurd rfl hmm
      | true => rfl

/-- Witness for C10: a listed repository is writable and a mismatching key
is read-only. -/
theorem c10_witness :
    (⟨"app", false⟩ : Repo).readOnly = false ∧
    (⟨5, "x", some true⟩ : GithubKey).readOnly = some true :=
  ⟨c10_lister_read_only_false.1 (.ok ["app"]) [⟨"app", false⟩] rfl
      ⟨"app", false⟩ (by decide),
   c10_lister_read_only_false.2 ⟨"app", false⟩ ⟨5, "x", some true⟩ rfl (by decide)⟩

end GithubLambda
